import Mathlib

/-!
# Verification of the feast go online feature serving engine

Shallow embedding of:
* the generated schema model of `feast/core/FeatureView.proto`
  (`FeatureView`, `FeatureViewSpec`, `FeatureViewMeta`,
  `MaterializationInterval` and their nil-tolerant getters), Go package
  `core`;
* the `DataSource` and `RequestFeatureView` proto schemas;
* the gRPC forwarding handler `servingServiceServer` of
  `go/cmd/goserver/server.go`;
* the online feature retrieval engine (reference resolution, composite-key
  deduplication, TTL staleness filtering, on-demand passthrough, response
  assembly).  The engine's Go implementation (`internal/feast`) is not part
  of this source snapshot; it is modelled from the specification, and every
  such definition is marked `Modelled from the spec:` in its doc comment.

Go pointers become `Option`, Go slices become `List`, Go maps become
association lists, protobuf `Duration`/`Timestamp` become integer
second/nano pairs (the engine compares ages as integers), and fallible Go
paths become `Except`.
-/

namespace core

/-- `google.protobuf.Duration`: signed seconds and nanos. -/
structure Duration where
  seconds : Int
  nanos : Int
deriving DecidableEq, Repr

/-- `google.protobuf.Timestamp`: seconds and nanos since the epoch. -/
structure Timestamp where
  seconds : Int
  nanos : Int
deriving DecidableEq, Repr

/-- Modelled from the spec: `FeatureSpecV2` (generated from
`feast/core/Feature.proto`, not in this snapshot) — a feature is a
`(name, value-type)` pair; the value type enum is abstracted to a `Nat`
tag. -/
structure FeatureSpecV2 where
  name : String
  valueType : Nat
deriving DecidableEq, Repr

/-- Modelled from the spec: `FileFormat` (from `feast/core/DataFormat.proto`,
not in this snapshot), abstracted to an opaque tag. -/
structure FileFormat where
  tag : Nat
deriving DecidableEq, Repr

/-- Modelled from the spec: `StreamFormat` (from `feast/core/DataFormat.proto`,
not in this snapshot), abstracted to an opaque tag. -/
structure StreamFormat where
  tag : Nat
deriving DecidableEq, Repr

/-- `DataSource.SourceType` enum from `feast/core/DataSource.proto`. -/
inductive SourceType where
  | INVALID
  | BATCH_FILE
  | BATCH_SNOWFLAKE
  | BATCH_BIGQUERY
  | BATCH_REDSHIFT
  | STREAM_KAFKA
  | STREAM_KINESIS
  | CUSTOM_SOURCE
  | REQUEST_SOURCE
deriving DecidableEq, Repr

/-- `DataSource.FileOptions`. -/
structure FileOptions where
  fileFormat : Option FileFormat
  fileUrl : String
  s3EndpointOverride : String
deriving DecidableEq, Repr

/-- `DataSource.BigQueryOptions`. -/
structure BigQueryOptions where
  tableRef : String
  query : String
deriving DecidableEq, Repr

/-- `DataSource.KafkaOptions`. -/
structure KafkaOptions where
  bootstrapServers : String
  topic : String
  messageFormat : Option StreamFormat
deriving DecidableEq, Repr

/-- `DataSource.KinesisOptions`. -/
structure KinesisOptions where
  region : String
  streamName : String
  recordFormat : Option StreamFormat
deriving DecidableEq, Repr

/-- `DataSource.RedshiftOptions`. -/
structure RedshiftOptions where
  table : String
  query : String
  schema : String
deriving DecidableEq, Repr

/-- `DataSource.SnowflakeOptions`. -/
structure SnowflakeOptions where
  table : String
  query : String
  schema : String
  database : String
deriving DecidableEq, Repr

/-- `DataSource.CustomSourceOptions`: opaque serialized configuration. -/
structure CustomSourceOptions where
  configuration : List Nat
deriving DecidableEq, Repr

/-- `DataSource.RequestDataOptions`: name and schema mapping feature name
to value type (value type enum abstracted to `Nat`). -/
structure RequestDataOptions where
  name : String
  schema : List (String × Nat)
deriving DecidableEq, Repr

/-- The `oneof options` of `DataSource`: at most one variant is set in any
proto3 message, which the sum type captures; absence is the enclosing
`Option`. -/
inductive DataSourceOptions where
  | fileOptions (o : FileOptions)
  | bigqueryOptions (o : BigQueryOptions)
  | kafkaOptions (o : KafkaOptions)
  | kinesisOptions (o : KinesisOptions)
  | redshiftOptions (o : RedshiftOptions)
  | requestDataOptions (o : RequestDataOptions)
  | customOptions (o : CustomSourceOptions)
  | snowflakeOptions (o : SnowflakeOptions)
deriving DecidableEq, Repr

/-- `feast.core.DataSource` from `feast/core/DataSource.proto`. -/
structure DataSource where
  type : SourceType
  fieldMapping : List (String × String)
  eventTimestampColumn : String
  datePartitionColumn : String
  createdTimestampColumn : String
  dataSourceClassType : String
  options : Option DataSourceOptions
deriving DecidableEq, Repr

/-- `feast.core.FeatureViewSpec` (generated Go struct; pointer fields are
`Option`, slices are `List`, the tags map is an association list). -/
structure FeatureViewSpec where
  name : String
  project : String
  entities : List String
  features : List (Option FeatureSpecV2)
  tags : List (String × String)
  ttl : Option Duration
  batchSource : Option DataSource
  streamSource : Option DataSource
  online : Bool
deriving DecidableEq, Repr

/-- `feast.core.MaterializationInterval`. -/
structure MaterializationInterval where
  startTime : Option Timestamp
  endTime : Option Timestamp
deriving DecidableEq, Repr

/-- `feast.core.FeatureViewMeta`. -/
structure FeatureViewMeta where
  createdTimestamp : Option Timestamp
  lastUpdatedTimestamp : Option Timestamp
  materializationIntervals : List (Option MaterializationInterval)
deriving DecidableEq, Repr

/-- `feast.core.FeatureView`. -/
structure FeatureView where
  spec : Option FeatureViewSpec
  meta : Option FeatureViewMeta
deriving DecidableEq, Repr

/-- `func (x *FeatureView) GetSpec()`: nil receiver yields nil. -/
def FeatureView.GetSpec : Option FeatureView → Option FeatureViewSpec
  | some x => x.spec
  | none => none

/-- `func (x *FeatureView) GetMeta()`: nil receiver yields nil. -/
def FeatureView.GetMeta : Option FeatureView → Option FeatureViewMeta
  | some x => x.meta
  | none => none

/-- `func (x *FeatureViewSpec) GetName()`: nil receiver yields `""`. -/
def FeatureViewSpec.GetName : Option FeatureViewSpec → String
  | some x => x.name
  | none => ""

/-- `func (x *FeatureViewSpec) GetProject()`: nil receiver yields `""`. -/
def FeatureViewSpec.GetProject : Option FeatureViewSpec → String
  | some x => x.project
  | none => ""

/-- `func (x *FeatureViewSpec) GetEntities()`: nil receiver yields the nil
slice. -/
def FeatureViewSpec.GetEntities : Option FeatureViewSpec → List String
  | some x => x.entities
  | none => []

/-- `func (x *FeatureViewSpec) GetFeatures()`: nil receiver yields the nil
slice. -/
def FeatureViewSpec.GetFeatures : Option FeatureViewSpec → List (Option FeatureSpecV2)
  | some x => x.features
  | none => []

/-- `func (x *FeatureViewSpec) GetTags()`: nil receiver yields the nil map. -/
def FeatureViewSpec.GetTags : Option FeatureViewSpec → List (String × String)
  | some x => x.tags
  | none => []

/-- `func (x *FeatureViewSpec) GetTtl()`: nil receiver yields nil. -/
def FeatureViewSpec.GetTtl : Option FeatureViewSpec → Option Duration
  | some x => x.ttl
  | none => none

/-- `func (x *FeatureViewSpec) GetBatchSource()`: nil receiver yields nil. -/
def FeatureViewSpec.GetBatchSource : Option FeatureViewSpec → Option DataSource
  | some x => x.batchSource
  | none => none

/-- `func (x *FeatureViewSpec) GetStreamSource()`: nil receiver yields nil. -/
def FeatureViewSpec.GetStreamSource : Option FeatureViewSpec → Option DataSource
  | some x => x.streamSource
  | none => none

/-- `func (x *FeatureViewSpec) GetOnline()`: nil receiver yields `false`. -/
def FeatureViewSpec.GetOnline : Option FeatureViewSpec → Bool
  | some x => x.online
  | none => false

/-- `func (x *FeatureViewMeta) GetCreatedTimestamp()`: nil receiver yields
nil. -/
def FeatureViewMeta.GetCreatedTimestamp : Option FeatureViewMeta → Option Timestamp
  | some x => x.createdTimestamp
  | none => none

/-- `func (x *FeatureViewMeta) GetLastUpdatedTimestamp()`: nil receiver
yields nil. -/
def FeatureViewMeta.GetLastUpdatedTimestamp : Option FeatureViewMeta → Option Timestamp
  | some x => x.lastUpdatedTimestamp
  | none => none

/-- `func (x *FeatureViewMeta) GetMaterializationIntervals()`: nil receiver
yields the nil slice. -/
def FeatureViewMeta.GetMaterializationIntervals :
    Option FeatureViewMeta → List (Option MaterializationInterval)
  | some x => x.materializationIntervals
  | none => []

/-- `func (x *MaterializationInterval) GetStartTime()`: nil receiver yields
nil. -/
def MaterializationInterval.GetStartTime : Option MaterializationInterval → Option Timestamp
  | some x => x.startTime
  | none => none

/-- `func (x *MaterializationInterval) GetEndTime()`: nil receiver yields
nil. -/
def MaterializationInterval.GetEndTime : Option MaterializationInterval → Option Timestamp
  | some x => x.endTime
  | none => none

/-- `feast.core.RequestFeatureViewSpec` from
`feast/core/RequestFeatureView.proto`. -/
structure RequestFeatureViewSpec where
  name : String
  project : String
  requestDataSource : Option DataSource
deriving DecidableEq, Repr

/-- `feast.core.RequestFeatureView`. -/
structure RequestFeatureView where
  spec : Option RequestFeatureViewSpec
deriving DecidableEq, Repr

/-- `true` iff the `file_options` variant of the oneof is populated. -/
def DataSource.hasFileOptions (ds : DataSource) : Bool :=
  match ds.options with
  | some (.fileOptions _) => true
  | _ => false

/-- `true` iff the `bigquery_options` variant of the oneof is populated. -/
def DataSource.hasBigqueryOptions (ds : DataSource) : Bool :=
  match ds.options with
  | some (.bigqueryOptions _) => true
  | _ => false

/-- `true` iff the `kafka_options` variant of the oneof is populated. -/
def DataSource.hasKafkaOptions (ds : DataSource) : Bool :=
  match ds.options with
  | some (.kafkaOptions _) => true
  | _ => false

/-- `true` iff the `kinesis_options` variant of the oneof is populated. -/
def DataSource.hasKinesisOptions (ds : DataSource) : Bool :=
  match ds.options with
  | some (.kinesisOptions _) => true
  | _ => false

/-- `true` iff the `redshift_options` variant of the oneof is populated. -/
def DataSource.hasRedshiftOptions (ds : DataSource) : Bool :=
  match ds.options with
  | some (.redshiftOptions _) => true
  | _ => false

/-- `true` iff the `request_data_options` variant of the oneof is
populated. -/
def DataSource.hasRequestDataOptions (ds : DataSource) : Bool :=
  match ds.options with
  | some (.requestDataOptions _) => true
  | _ => false

/-- `true` iff the `custom_options` variant of the oneof is populated. -/
def DataSource.hasCustomOptions (ds : DataSource) : Bool :=
  match ds.options with
  | some (.customOptions _) => true
  | _ => false

/-- `true` iff the `snowflake_options` variant of the oneof is populated. -/
def DataSource.hasSnowflakeOptions (ds : DataSource) : Bool :=
  match ds.options with
  | some (.snowflakeOptions _) => true
  | _ => false

/-- Number of populated kind-specific option sets of a `DataSource`. -/
def DataSource.populatedCount (ds : DataSource) : Nat :=
  ds.hasFileOptions.toNat + ds.hasBigqueryOptions.toNat + ds.hasKafkaOptions.toNat +
    ds.hasKinesisOptions.toNat + ds.hasRedshiftOptions.toNat +
    ds.hasRequestDataOptions.toNat + ds.hasCustomOptions.toNat +
    ds.hasSnowflakeOptions.toNat

/-- The declared `type` field that corresponds to each oneof variant. -/
def DataSourceOptions.declaredType : DataSourceOptions → SourceType
  | .fileOptions _ => .BATCH_FILE
  | .bigqueryOptions _ => .BATCH_BIGQUERY
  | .kafkaOptions _ => .STREAM_KAFKA
  | .kinesisOptions _ => .STREAM_KINESIS
  | .redshiftOptions _ => .BATCH_REDSHIFT
  | .requestDataOptions _ => .REQUEST_SOURCE
  | .customOptions _ => .CUSTOM_SOURCE
  | .snowflakeOptions _ => .BATCH_SNOWFLAKE

/-- `true` when the populated oneof variant (if any) corresponds to the
declared `type`; vacuously `true` when no variant is populated. -/
def DataSource.typeMatchesOptions (ds : DataSource) : Bool :=
  match ds.options with
  | some o => o.declaredType == ds.type
  | none => true

/-- The tagged-union invariant the specification asserts: exactly one
option set is populated and it matches the declared `type`. -/
def DataSource.taggedUnionInvariant (ds : DataSource) : Prop :=
  ds.populatedCount = 1 ∧ ds.typeMatchesOptions = true

instance (ds : DataSource) : Decidable ds.taggedUnionInvariant :=
  inferInstanceAs (Decidable (_ ∧ _))

end core

namespace feast

/-- Feature and entity values, abstracted to naturals (the engine treats
them opaquely). -/
abbrev Val := Nat

/-- One request entity row: an association list from entity or request-data
field name to its value. -/
abbrev EntityRow := List (String × Val)

/-- Look up a named value in a request row (first binding wins). -/
def EntityRow.lookupField (row : EntityRow) (n : String) : Option Val :=
  (row.find? (fun p => p.1 == n)).map Prod.snd

/-- Per-value status codes of the serving response. -/
inductive FieldStatus where
  | PRESENT
  | NULL_VALUE
  | NOT_FOUND
  | OUTSIDE_TTL
deriving DecidableEq, Repr

/-- A feature reference `"<view>:<feature>"`, already split into its two
components. -/
structure FeatureRef where
  viewName : String
  featureName : String
deriving DecidableEq, Repr

/-- The retrieval request: ordered entity rows and ordered feature
references. -/
structure GetOnlineFeaturesRequest where
  project : String
  entityRows : List EntityRow
  features : List FeatureRef
deriving DecidableEq, Repr

/-- One `(value, status, eventTimestamp)` cell of the response. -/
structure FeatureResult where
  value : Option Val
  status : FieldStatus
  eventTimestamp : Option Int
deriving DecidableEq, Repr

/-- The retrieval response: one row-aligned vector per requested feature,
in request order. -/
structure GetOnlineFeaturesResponse where
  results : List (List FeatureResult)
deriving DecidableEq, Repr

/-- Modelled from the spec: the error taxonomy of §7 — DefinitionErrors
(unknown view or feature, view not servable online, missing request data,
missing entity value) and StoreErrors (failed batch read). -/
inductive EngineError where
  | featureNotFound (view feat : String)
  | viewNotServableOnline (view : String)
  | missingRequestData (field : String)
  | missingEntityValue (name : String)
  | storeError (view : String)
deriving DecidableEq, Repr

/-- `true` for the errors the specification classes as DefinitionErrors. -/
def EngineError.isDefinitionError : EngineError → Bool
  | .featureNotFound _ _ => true
  | .viewNotServableOnline _ => true
  | .missingRequestData _ => true
  | .missingEntityValue _ => true
  | .storeError _ => false

/-- Modelled from the spec: the registry's store-backed feature view
(§3) — name, owning entities, feature names, optional ttl (an integer
duration; unset means never stale) and the online-enablement flag.  The
engine's Go implementation (`internal/feast`, absent from this snapshot)
consumes the generated `core.FeatureViewSpec`; this model keeps the fields
the retrieval algorithm reads. -/
structure FeatureView where
  name : String
  entities : List String
  features : List String
  ttl : Option Int
  online : Bool
deriving DecidableEq, Repr

/-- Modelled from the spec: a request (on-demand) feature view — name and
the field names of its request-data schema (§3). -/
structure RequestView where
  name : String
  schemaFields : List String
deriving DecidableEq, Repr

/-- Modelled from the spec: the registry snapshot consulted by the
engine — store-backed views and request views, already scoped to the
project. -/
structure Registry where
  featureViews : List FeatureView
  requestFeatureViews : List RequestView

/-- A value stored in the online store with its event timestamp. -/
structure StoreCell where
  value : Val
  eventTimestamp : Int
deriving DecidableEq, Repr

/-- A composite entity key: the row's values for the needed entity names
in canonical order. -/
abbrev CompositeKey := List Val

/-- Modelled from the spec: the Online Store Reader contract (§6).
`read project view` either fails (a StoreError for that view's batch
read) or yields the lookup from composite key and feature name to the
last-written cell, `none` meaning absent. -/
structure OnlineStore where
  read : String → String → Except Unit (CompositeKey → String → Option StoreCell)

/-- One logged `ReadBatch` call: the view that was read and the composite
keys passed to it. -/
structure ReadCall where
  viewName : String
  keys : List CompositeKey
deriving DecidableEq, Repr

/-- A resolved feature reference: either a feature of a store-backed view
or an on-demand (request view) feature. -/
inductive ResolvedRef where
  | storeBacked (view : FeatureView) (featureName : String)
  | onDemand (viewName : String) (featureName : String)
deriving DecidableEq, Repr

/-- The store-backed view of a resolved reference, if any. -/
def ResolvedRef.storeView : ResolvedRef → Option FeatureView
  | .storeBacked v _ => some v
  | .onDemand _ _ => none

/-- Look up a store-backed view by name in the registry. -/
def Registry.findView (reg : Registry) (n : String) : Option FeatureView :=
  reg.featureViews.find? (fun v => v.name == n)

/-- Look up a request view by name in the registry. -/
def Registry.findRequestView (reg : Registry) (n : String) : Option RequestView :=
  reg.requestFeatureViews.find? (fun v => v.name == n)

/-- Modelled from the spec: the Reference Resolver for one reference
(§4.1).  Unknown view or unknown feature in a known view fails with
"feature not found"; a view with `online == false` fails with "view not
servable online"; a reference into a request view requires every schema
field to be present in every request row, else "missing request data". -/
def resolveRef (reg : Registry) (rows : List EntityRow) (ref : FeatureRef) :
    Except EngineError ResolvedRef :=
  match reg.findView ref.viewName with
  | some v =>
    if v.features.contains ref.featureName then
      if v.online then .ok (.storeBacked v ref.featureName)
      else .error (.viewNotServableOnline ref.viewName)
    else .error (.featureNotFound ref.viewName ref.featureName)
  | none =>
    match reg.findRequestView ref.viewName with
    | some rv =>
      if rv.schemaFields.contains ref.featureName then
        match rv.schemaFields.find?
            (fun f => rows.any (fun row => (row.lookupField f).isNone)) with
        | some f => .error (.missingRequestData f)
        | none => .ok (.onDemand rv.name ref.featureName)
      else .error (.featureNotFound ref.viewName ref.featureName)
    | none => .error (.featureNotFound ref.viewName ref.featureName)

/-- Map a fallible function over a list, failing fast on the first error
(the `Except` analogue of `List.mapM`, written recursively so proofs can
proceed by structural induction). -/
def exceptMap (f : α → Except ε β) : List α → Except ε (List β)
  | [] => .ok []
  | a :: as =>
    match f a with
    | .error e => .error e
    | .ok b =>
      match exceptMap f as with
      | .error e => .error e
      | .ok bs => .ok (b :: bs)

/-- Modelled from the spec: resolve all references in request order,
failing the whole call on the first error (§4.1, §7). -/
def resolveRefs (reg : Registry) (rows : List EntityRow)
    (refs : List FeatureRef) : Except EngineError (List ResolvedRef) :=
  exceptMap (resolveRef reg rows) refs

/-- Modelled from the spec: the union of entity names needed across the
resolved store-backed views, in canonical (first-resolution, duplicate-free)
order (§4.1, §4.2 step 1). -/
def entityUnion (resolved : List ResolvedRef) : List String :=
  ((resolved.filterMap ResolvedRef.storeView).map FeatureView.entities).flatten.dedup

/-- Modelled from the spec: build one composite key for a request row by
concatenating its values for the needed entity names in canonical order
(§4.2 step 1); a row lacking a needed entity value fails the call. -/
def compositeKey (names : List String) (row : EntityRow) :
    Except EngineError CompositeKey :=
  exceptMap
    (fun n =>
      match row.lookupField n with
      | some v => .ok v
      | none => .error (.missingEntityValue n))
    names

/-- Modelled from the spec: the distinct store-backed views with at least
one requested feature, deduplicated by name (§4.2 step 3 issues one
batched read per such view). -/
def distinctViews : List ResolvedRef → List FeatureView
  | [] => []
  | .onDemand _ _ :: rest => distinctViews rest
  | .storeBacked v _ :: rest =>
    let tail := distinctViews rest
    if tail.any (fun w => w.name == v.name) then tail else v :: tail

/-- Modelled from the spec: issue one batched read per feature view,
failing the whole call on the first store error (§4.2 step 3, §7);
on success yields each view's key/feature lookup. -/
def fetchViews (store : OnlineStore) (project : String) :
    List FeatureView → Except EngineError (List (String × (CompositeKey → String → Option StoreCell)))
  | [] => .ok []
  | v :: vs =>
    match store.read project v.name with
    | .error _ => .error (.storeError v.name)
    | .ok f =>
      match fetchViews store project vs with
      | .error e => .error e
      | .ok rest => .ok ((v.name, f) :: rest)

/-- Modelled from the spec: TTL staleness filtering for one cell (§4.2
step 4).  No row: NOT_FOUND.  View without ttl: PRESENT for any age.
With ttl: PRESENT when `requestTime - eventTimestamp ≤ ttl` (age equal to
ttl counts as fresh), otherwise OUTSIDE_TTL with the value discarded from
the payload. -/
def applyTtl (ttl : Option Int) (requestTime : Int) (cell : Option StoreCell) :
    FeatureResult :=
  match cell with
  | none => ⟨none, .NOT_FOUND, none⟩
  | some c =>
    match ttl with
    | none => ⟨some c.value, .PRESENT, some c.eventTimestamp⟩
    | some t =>
      if requestTime - c.eventTimestamp ≤ t then
        ⟨some c.value, .PRESENT, some c.eventTimestamp⟩
      else
        ⟨none, .OUTSIDE_TTL, some c.eventTimestamp⟩

/-- Modelled from the spec: assemble the row-aligned vector for one
resolved reference (§4.2 steps 4-6, §4.3).  Store-backed features replay
each row's composite key against the view's deduplicated fetch result and
apply the TTL filter at the single request time; on-demand features take
each row's caller-supplied value verbatim with status PRESENT. -/
def assembleRef (lookups : List (String × (CompositeKey → String → Option StoreCell)))
    (requestTime : Int) (rowKeys : List CompositeKey) (rows : List EntityRow) :
    ResolvedRef → List FeatureResult
  | .storeBacked v feat =>
    match lookups.find? (fun p => p.1 == v.name) with
    | some p => rowKeys.map (fun k => applyTtl v.ttl requestTime (p.2 k feat))
    | none => rowKeys.map (fun _ => ⟨none, .NOT_FOUND, none⟩)
  | .onDemand _ feat =>
    rows.map (fun row => ⟨row.lookupField feat, .PRESENT, none⟩)

/-- Modelled from the spec: the retrieval engine (§4.2), one call.
Resolves references fail-fast, builds one composite key per row over the
union of needed entity names, deduplicates keys, reads each distinct
store-backed view once for the unique keys (the returned log records
these `ReadBatch` calls), applies TTL filtering at the single
`requestTime`, merges on-demand values, and assembles vectors in request
order. -/
def getOnlineFeaturesEngine (reg : Registry) (store : OnlineStore)
    (requestTime : Int) (req : GetOnlineFeaturesRequest) :
    Except EngineError (GetOnlineFeaturesResponse × List ReadCall) :=
  match resolveRefs reg req.entityRows req.features with
  | .error e => .error e
  | .ok resolved =>
    let names := entityUnion resolved
    match exceptMap (compositeKey names) req.entityRows with
    | .error e => .error e
    | .ok rowKeys =>
      let views := distinctViews resolved
      match fetchViews store req.project views with
      | .error e => .error e
      | .ok lookups =>
        .ok (⟨resolved.map (assembleRef lookups requestTime rowKeys req.entityRows)⟩,
          views.map (fun v => ⟨v.name, rowKeys.dedup⟩))

end feast

/-- `context.Context` of the Go handler, abstracted to an opaque token
carrying the call's deadline/cancellation identity. -/
structure Ctx where
  id : Nat
deriving DecidableEq, Repr

/-- Modelled from the spec: `feast.FeatureStore` (package
`go/internal/feast`, absent from this snapshot) — the injected registry
and online store, plus the online-store context that
`SetOnlineStoreContext` retains between calls. -/
structure FeatureStore where
  registry : feast.Registry
  store : feast.OnlineStore
  onlineStoreCtx : Option Ctx

/-- Modelled from the spec: `FeatureStore.SetOnlineStoreContext` stores
the caller's context on the feature store for use by subsequent online
store reads. -/
def FeatureStore.SetOnlineStoreContext (fs : FeatureStore) (ctx : Ctx) : FeatureStore :=
  { fs with onlineStoreCtx := some ctx }

/-- Modelled from the spec: `FeatureStore.GetOnlineFeatures` runs the
retrieval engine against the store's registry and online store at the
call's request time. -/
def FeatureStore.GetOnlineFeatures (fs : FeatureStore) (requestTime : Int)
    (req : feast.GetOnlineFeaturesRequest) :
    Except feast.EngineError (feast.GetOnlineFeaturesResponse × List feast.ReadCall) :=
  feast.getOnlineFeaturesEngine fs.registry fs.store requestTime req

/-- The request of the version/info query; its payload is irrelevant to
the handler and abstracted to a tag. -/
structure GetFeastServingInfoRequest where
  tag : Nat
deriving DecidableEq, Repr

/-- The response of the version/info query. -/
structure GetFeastServingInfoResponse where
  version : String
deriving DecidableEq, Repr

/-- Modelled from the spec: the static server identifier constant
`feastServerVersion` (defined elsewhere in the repository, absent from
this snapshot). -/
def feastServerVersion : String := "feast-go-server"

/-- The gRPC server of `go/cmd/goserver/server.go`, holding the shared
`FeatureStore`. -/
structure servingServiceServer where
  fs : FeatureStore

/-- `servingServiceServer.GetFeastServingInfo`: returns the static version
constant and a nil error, ignoring context and request. -/
def servingServiceServer.GetFeastServingInfo (s : servingServiceServer) (ctx : Ctx)
    (request : GetFeastServingInfoRequest) :
    Except feast.EngineError GetFeastServingInfoResponse :=
  .ok ⟨feastServerVersion⟩

/-- Concrete store-backed view fixture: entities `["e"]`, features
`["f", "g"]`, ttl 10, servable online. -/
def fixView1 : feast.FeatureView := ⟨"fv", ["e"], ["f", "g"], some 10, true⟩

/-- Concrete store-backed view fixture without ttl. -/
def fixView2 : feast.FeatureView := ⟨"fv2", ["e"], ["h"], none, true⟩

/-- Concrete request (on-demand) view fixture with one schema field. -/
def fixRequestView : feast.RequestView := ⟨"rq", ["r"]⟩

/-- Concrete registry fixture. -/
def fixRegistry : feast.Registry := ⟨[fixView1, fixView2], [fixRequestView]⟩

/-- Concrete online store fixture: view `"fv"` holds `f = 7` at event time
95 and `g = 8` at event time 50 for key `[1]`; everything else is
absent. -/
def fixStore : feast.OnlineStore :=
  ⟨fun _ vn =>
    .ok (fun k f =>
      if vn == "fv" && k == [1] && f == "f" then some ⟨7, 95⟩
      else if vn == "fv" && k == [1] && f == "g" then some ⟨8, 50⟩
      else none)⟩

/-- Concrete request fixture: three rows (the first two sharing entity
value 1 but differing in the request-data field `r`), requesting a
store-backed feature, an on-demand feature, and a stale store-backed
feature. -/
def fixRequest : feast.GetOnlineFeaturesRequest :=
  ⟨"p", [[("e", 1), ("r", 5)], [("e", 1), ("r", 6)], [("e", 2), ("r", 5)]],
   [⟨"fv", "f"⟩, ⟨"rq", "r"⟩, ⟨"fv", "g"⟩]⟩

/-- Concrete request fixture naming an unknown view. -/
def fixRequestUnknown : feast.GetOnlineFeaturesRequest :=
  ⟨"p", [[("e", 1)]], [⟨"missingview", "missingfeat"⟩]⟩

/-- Concrete request fixture asking only for the on-demand feature. -/
def fixRequestOnDemandOnly : feast.GetOnlineFeaturesRequest :=
  ⟨"p", [[("e", 1), ("r", 5)], [("e", 1), ("r", 6)]], [⟨"rq", "r"⟩]⟩

/-- Concrete `DataSource` fixture with a declared `type` but no populated
option set (a legal proto3 message: every field at its default). -/
def fixDataSourceNoOptions : core.DataSource :=
  ⟨.BATCH_FILE, [], "", "", "", "", none⟩

/-- `servingServiceServer.GetOnlineFeatures`: stores the incoming call
context on the shared `FeatureStore` via `SetOnlineStoreContext`, then
delegates to `FeatureStore.GetOnlineFeatures` and returns its result
unchanged.  The mutation of the shared store is modelled by returning the
updated server state alongside the result. -/
def servingServiceServer.GetOnlineFeatures (s : servingServiceServer) (ctx : Ctx)
    (requestTime : Int) (request : feast.GetOnlineFeaturesRequest) :
    servingServiceServer ×
      Except feast.EngineError (feast.GetOnlineFeaturesResponse × List feast.ReadCall) :=
  let s2 : servingServiceServer := ⟨s.fs.SetOnlineStoreContext ctx⟩
  (s2, s2.fs.GetOnlineFeatures requestTime request)

/-- Concrete server fixture whose feature store has no online-store
context retained yet. -/
def fixServer : servingServiceServer := ⟨⟨fixRegistry, fixStore, none⟩⟩

section Lemmas

open feast

theorem exceptMap_ok_length {f : α → Except ε β} {xs : List α} {ys : List β}
    (h : exceptMap f xs = .ok ys) : ys.length = xs.length := by
  induction xs generalizing ys with
  | nil => simp [exceptMap] at h; simp [← h]
  | cons a as ih =>
    simp only [exceptMap] at h
    cases hfa : f a with
    | error e => rw [hfa] at h; exact absurd h (by simp)
    | ok b =>
      rw [hfa] at h
      cases hrest : exceptMap f as with
      | error e => rw [hrest] at h; exact absurd h (by simp)
      | ok bs =>
        rw [hrest] at h
        cases h
        simp [ih hrest]

theorem exceptMap_ok_getElem {f : α → Except ε β} {xs : List α} {ys : List β}
    (h : exceptMap f xs = .ok ys) {i : Nat} {a : α} (ha : xs[i]? = some a) :
    ∃ b, ys[i]? = some b ∧ f a = .ok b := by
  induction xs generalizing ys i with
  | nil => simp at ha
  | cons x as ih =>
    simp only [exceptMap] at h
    cases hfa : f x with
    | error e => rw [hfa] at h; exact absurd h (by simp)
    | ok b =>
      rw [hfa] at h
      cases hrest : exceptMap f as with
      | error e => rw [hrest] at h; exact absurd h (by simp)
      | ok bs =>
        rw [hrest] at h
        cases h
        cases i with
        | zero =>
          simp at ha
          subst ha
          exact ⟨b, by simp, hfa⟩
        | succ n => simp at ha; simpa using ih hrest ha

theorem exceptMap_error_first {f : α → Except ε β} {e : ε} :
    ∀ (xs₁ : List α) (r : α) (xs₂ : List α),
      (∀ a ∈ xs₁, ∃ b, f a = .ok b) → f r = .error e →
      exceptMap f (xs₁ ++ r :: xs₂) = .error e := by
  intro xs₁
  induction xs₁ with
  | nil =>
    intro r xs₂ _ hr
    simp [exceptMap, hr]
  | cons a as ih =>
    intro r xs₂ hok hr
    obtain ⟨b, hb⟩ := hok a (by simp)
    have hrest := ih r xs₂ (fun x hx => hok x (by simp [hx])) hr
    simp [exceptMap, hb, hrest]

theorem distinctViews_name_nodup (resolved : List ResolvedRef) :
    ((distinctViews resolved).map FeatureView.name).Nodup := by
  induction resolved with
  | nil => simp [distinctViews]
  | cons r rest ih =>
    cases r with
    | onDemand vn feat => simpa [distinctViews] using ih
    | storeBacked v feat =>
      simp only [distinctViews]
      by_cases h : (distinctViews rest).any (fun w => w.name == v.name)
      · simpa [h] using ih
      · simp only [h, if_false, Bool.false_eq_true, List.map_cons]
        refine List.nodup_cons.mpr ⟨?_, ih⟩
        intro hmem
        obtain ⟨w, hw, hwn⟩ := List.mem_map.mp hmem
        exact h (List.any_eq_true.mpr ⟨w, hw, by simp [hwn]⟩)

theorem assembleRef_length
    {lookups : List (String × (CompositeKey → String → Option StoreCell))}
    {rt : Int} {rowKeys : List CompositeKey} {rows : List EntityRow}
    (h : rowKeys.length = rows.length) (r : ResolvedRef) :
    (assembleRef lookups rt rowKeys rows r).length = rows.length := by
  cases r with
  | storeBacked v feat =>
    simp only [assembleRef]
    cases lookups.find? (fun p => p.1 == v.name) <;> simp [h]
  | onDemand vn feat => simp [assembleRef]

theorem engine_ok_elim {reg : Registry} {store : OnlineStore} {rt : Int}
    {req : GetOnlineFeaturesRequest} {resp : GetOnlineFeaturesResponse}
    {log : List ReadCall}
    (h : getOnlineFeaturesEngine reg store rt req = .ok (resp, log)) :
    ∃ resolved rowKeys lookups,
      resolveRefs reg req.entityRows req.features = .ok resolved ∧
      exceptMap (compositeKey (entityUnion resolved)) req.entityRows = .ok rowKeys ∧
      fetchViews store req.project (distinctViews resolved) = .ok lookups ∧
      resp = ⟨resolved.map (assembleRef lookups rt rowKeys req.entityRows)⟩ ∧
      log = (distinctViews resolved).map (fun v => ⟨v.name, rowKeys.dedup⟩) := by
  unfold getOnlineFeaturesEngine at h
  cases h1 : resolveRefs reg req.entityRows req.features with
  | error e => rw [h1] at h; exact absurd h (by simp)
  | ok resolved =>
    rw [h1] at h
    dsimp only at h
    cases h2 : exceptMap (compositeKey (entityUnion resolved)) req.entityRows with
    | error e => rw [h2] at h; exact absurd h (by simp)
    | ok rowKeys =>
      rw [h2] at h
      dsimp only at h
      cases h3 : fetchViews store req.project (distinctViews resolved) with
      | error e => rw [h3] at h; exact absurd h (by simp)
      | ok lookups =>
        rw [h3] at h
        dsimp only at h
        simp only [Except.ok.injEq, Prod.mk.injEq] at h
        exact ⟨resolved, rowKeys, lookups, rfl, h2, h3, h.1.symm, h.2.symm⟩

theorem engine_ok_intro {reg : Registry} {store : OnlineStore} {rt : Int}
    {req : GetOnlineFeaturesRequest} {resolved : List ResolvedRef}
    {rowKeys : List CompositeKey}
    {lookups : List (String × (CompositeKey → String → Option StoreCell))}
    (h1 : resolveRefs reg req.entityRows req.features = .ok resolved)
    (h2 : exceptMap (compositeKey (entityUnion resolved)) req.entityRows = .ok rowKeys)
    (h3 : fetchViews store req.project (distinctViews resolved) = .ok lookups) :
    getOnlineFeaturesEngine reg store rt req =
      .ok (⟨resolved.map (assembleRef lookups rt rowKeys req.entityRows)⟩,
        (distinctViews resolved).map (fun v => ⟨v.name, rowKeys.dedup⟩)) := by
  unfold getOnlineFeaturesEngine
  rw [h1]
  dsimp only
  rw [h2]
  dsimp only
  rw [h3]

theorem resolveRef_error_isDefinitionError {reg : Registry} {rows : List EntityRow}
    {ref : FeatureRef} {e : EngineError}
    (h : resolveRef reg rows ref = .error e) : e.isDefinitionError = true := by
  unfold resolveRef at h
  cases hv : reg.findView ref.viewName <;> rw [hv] at h <;> dsimp only at h
  · cases hrv : reg.findRequestView ref.viewName <;> rw [hrv] at h <;> dsimp only at h
    · cases h; rfl
    · rename_i rv
      by_cases hc : rv.schemaFields.contains ref.featureName
      · rw [if_pos hc] at h
        cases hf : rv.schemaFields.find?
            (fun f => rows.any (fun row => (row.lookupField f).isNone)) <;> rw [hf] at h
        · cases h
        · cases h; rfl
      · rw [if_neg hc] at h
        cases h; rfl
  · rename_i v
    by_cases hc : v.features.contains ref.featureName
    · rw [if_pos hc] at h
      by_cases ho : v.online
      · rw [if_pos ho] at h; cases h
      · rw [if_neg ho] at h; cases h; rfl
    · rw [if_neg hc] at h
      cases h; rfl

theorem fetchViews_error {store : OnlineStore} {project : String}
    {vs : List FeatureView} {e : EngineError}
    (h : fetchViews store project vs = .error e) :
    ∃ vn, e = .storeError vn := by
  induction vs with
  | nil => simp [fetchViews] at h
  | cons v rest ih =>
    simp only [fetchViews] at h
    cases hr : store.read project v.name <;> rw [hr] at h
    · cases h; exact ⟨v.name, rfl⟩
    · cases hrest : fetchViews store project rest <;> rw [hrest] at h
      · cases h; exact ih hrest
      · cases h

theorem resolveRef_onDemand_elim {reg : Registry} {rows : List EntityRow}
    {ref : FeatureRef} {vn feat : String}
    (h : resolveRef reg rows ref = .ok (.onDemand vn feat)) :
    feat = ref.featureName ∧
      ∃ rv, reg.findRequestView ref.viewName = some rv ∧ vn = rv.name ∧
        rv.schemaFields.contains ref.featureName = true ∧
        ∀ f ∈ rv.schemaFields, ∀ row ∈ rows, (row.lookupField f).isSome = true := by
  unfold resolveRef at h
  cases hv : reg.findView ref.viewName <;> rw [hv] at h <;> dsimp only at h
  · cases hrv : reg.findRequestView ref.viewName <;> rw [hrv] at h <;> dsimp only at h
    · cases h
    · rename_i rv
      by_cases hc : rv.schemaFields.contains ref.featureName
      · rw [if_pos hc] at h
        cases hf : rv.schemaFields.find?
            (fun f => rows.any (fun row => (row.lookupField f).isNone)) <;> rw [hf] at h
        · simp only [Except.ok.injEq, ResolvedRef.onDemand.injEq] at h
          obtain ⟨hvn, hfeat⟩ := h
          refine ⟨hfeat.symm, rv, rfl, hvn.symm, hc, ?_⟩
          intro f hfmem row hrow
          have hnone := List.find?_eq_none.mp hf f hfmem
          simp only [List.any_eq_true, not_exists, not_and] at hnone
          have := hnone row hrow
          simp only [Bool.not_eq_true, Option.isNone_eq_false_iff] at this
          exact this
        · cases h
      · rw [if_neg hc] at h
        cases h
  · rename_i v
    by_cases hc : v.features.contains ref.featureName
    · rw [if_pos hc] at h
      by_cases ho : v.online
      · rw [if_pos ho] at h; cases h
      · rw [if_neg ho] at h; cases h
    · rw [if_neg hc] at h; cases h

theorem distinctViews_eq_nil {resolved : List ResolvedRef}
    (h : ∀ r ∈ resolved, r.storeView = none) :
    distinctViews resolved = [] := by
  induction resolved with
  | nil => rfl
  | cons r rest ih =>
    cases r with
    | onDemand vn feat =>
      simpa [distinctViews] using ih (fun x hx => h x (by simp [hx]))
    | storeBacked v feat =>
      have := h (.storeBacked v feat) (by simp)
      simp [ResolvedRef.storeView] at this

theorem exceptMap_ok_mem {f : α → Except ε β} {xs : List α} {ys : List β}
    (h : exceptMap f xs = .ok ys) {b : β} (hb : b ∈ ys) : ∃ a ∈ xs, f a = .ok b := by
  induction xs generalizing ys with
  | nil =>
    simp only [exceptMap, Except.ok.injEq] at h
    subst h
    simp at hb
  | cons a as ih =>
    simp only [exceptMap] at h
    cases hfa : f a with
    | error e => rw [hfa] at h; exact absurd h (by simp)
    | ok b' =>
      rw [hfa] at h
      cases hrest : exceptMap f as with
      | error e => rw [hrest] at h; exact absurd h (by simp)
      | ok bs =>
        rw [hrest] at h
        cases h
        rcases List.mem_cons.mp hb with heq | hmem
        · exact ⟨a, by simp, by rw [heq]; exact hfa⟩
        · obtain ⟨a', ha', hfa'⟩ := ih hrest hmem
          exact ⟨a', by simp [ha'], hfa'⟩

theorem resolveRef_storeBacked_elim {reg : Registry} {rows : List EntityRow}
    {ref : FeatureRef} {v : FeatureView} {feat : String}
    (h : resolveRef reg rows ref = .ok (.storeBacked v feat)) :
    reg.findView ref.viewName = some v ∧ v.name = ref.viewName ∧
      feat = ref.featureName ∧ v.online = true ∧
      v.features.contains ref.featureName = true := by
  unfold resolveRef at h
  cases hv : reg.findView ref.viewName <;> rw [hv] at h <;> dsimp only at h
  · cases hrv : reg.findRequestView ref.viewName <;> rw [hrv] at h <;> dsimp only at h
    · cases h
    · rename_i rv
      by_cases hc : rv.schemaFields.contains ref.featureName
      · rw [if_pos hc] at h
        cases hf : rv.schemaFields.find?
            (fun f => rows.any (fun row => (row.lookupField f).isNone)) <;> rw [hf] at h
        · simp at h
        · cases h
      · rw [if_neg hc] at h
        cases h
  · rename_i w
    by_cases hc : w.features.contains ref.featureName
    · rw [if_pos hc] at h
      by_cases ho : w.online
      · rw [if_pos ho] at h
        simp only [Except.ok.injEq, ResolvedRef.storeBacked.injEq] at h
        obtain ⟨hw, hfeat⟩ := h
        subst hw
        have hp : w.name = ref.viewName := by
          have hq := List.find?_some
            (show reg.featureViews.find? (fun x => x.name == ref.viewName) = some w from hv)
          simpa using hq
        exact ⟨rfl, hp, hfeat.symm, ho, hc⟩
      · rw [if_neg ho] at h
        cases h
    · rw [if_neg hc] at h
      cases h

theorem resolveRefs_findView {reg : Registry} {rows : List EntityRow}
    {refs : List FeatureRef} {resolved : List ResolvedRef}
    (h : resolveRefs reg rows refs = .ok resolved)
    {v : FeatureView} {feat : String}
    (hv : ResolvedRef.storeBacked v feat ∈ resolved) :
    reg.findView v.name = some v := by
  obtain ⟨a, ha, hra⟩ := exceptMap_ok_mem h hv
  obtain ⟨hfind, hname, -, -, -⟩ := resolveRef_storeBacked_elim hra
  rw [hname]
  exact hfind

theorem distinctViews_mem_orig :
    ∀ {l : List ResolvedRef} {u : FeatureView},
      u ∈ distinctViews l → ∃ g, ResolvedRef.storeBacked u g ∈ l := by
  intro l
  induction l with
  | nil =>
    intro u hu
    simp [distinctViews] at hu
  | cons r rest ih =>
    intro u hu
    cases r with
    | onDemand vn g =>
      simp only [distinctViews] at hu
      obtain ⟨g', hg'⟩ := ih hu
      exact ⟨g', List.mem_cons_of_mem _ hg'⟩
    | storeBacked w g =>
      simp only [distinctViews] at hu
      by_cases hany : ((distinctViews rest).any (fun x => x.name == w.name)) = true
      · rw [if_pos hany] at hu
        obtain ⟨g', hg'⟩ := ih hu
        exact ⟨g', List.mem_cons_of_mem _ hg'⟩
      · rw [if_neg hany] at hu
        rcases List.mem_cons.mp hu with heq | hmem
        · exact ⟨g, by rw [heq]; exact List.mem_cons_self _ _⟩
        · obtain ⟨g', hg'⟩ := ih hmem
          exact ⟨g', List.mem_cons_of_mem _ hg'⟩

theorem storeBacked_mem_distinctViews {reg : Registry} :
    ∀ {l : List ResolvedRef},
      (∀ u g, ResolvedRef.storeBacked u g ∈ l → reg.findView u.name = some u) →
      ∀ {v : FeatureView} {feat : String},
        ResolvedRef.storeBacked v feat ∈ l → v ∈ distinctViews l := by
  intro l
  induction l with
  | nil =>
    intro _ v feat hv
    simp at hv
  | cons r rest ih =>
    intro hcoh v feat hv
    cases r with
    | onDemand vn g =>
      simp only [distinctViews]
      rcases List.mem_cons.mp hv with heq | hmem
      · simp at heq
      · exact ih (fun u g' hu => hcoh u g' (List.mem_cons_of_mem _ hu)) hmem
    | storeBacked w g =>
      simp only [distinctViews]
      rcases List.mem_cons.mp hv with heq | hmem
      · have hvw : v = w := by
          have h' := heq
          simp only [ResolvedRef.storeBacked.injEq] at h'
          exact h'.1
        subst hvw
        by_cases hany : ((distinctViews rest).any (fun x => x.name == v.name)) = true
        · rw [if_pos hany]
          obtain ⟨u, hu, hun⟩ := List.any_eq_true.mp hany
          have hun' : u.name = v.name := by simpa using hun
          obtain ⟨g', hg'⟩ := distinctViews_mem_orig hu
          have h1 := hcoh u g' (List.mem_cons_of_mem _ hg')
          have h2 := hcoh v feat hv
          rw [hun'] at h1
          have huv : u = v := by
            have h3 := h1.symm.trans h2
            simpa using h3
          rw [← huv]
          exact hu
        · rw [if_neg hany]
          exact List.mem_cons_self _ _
      · have hvtail := ih (fun u g' hu => hcoh u g' (List.mem_cons_of_mem _ hu)) hmem
        by_cases hany : ((distinctViews rest).any (fun x => x.name == w.name)) = true
        · rw [if_pos hany]
          exact hvtail
        · rw [if_neg hany]
          exact List.mem_cons_of_mem _ hvtail

theorem fetchViews_find {store : OnlineStore} {project : String} :
    ∀ {vs : List FeatureView}
      {lookups : List (String × (CompositeKey → String → Option StoreCell))},
      fetchViews store project vs = .ok lookups →
      ∀ {v : FeatureView}, v ∈ vs →
      ∃ f, store.read project v.name = .ok f ∧
        lookups.find? (fun p => p.1 == v.name) = some (v.name, f) := by
  intro vs
  induction vs with
  | nil =>
    intro lookups _ v hv
    simp at hv
  | cons w ws ih =>
    intro lookups h v hv
    simp only [fetchViews] at h
    cases hr : store.read project w.name <;> rw [hr] at h
    · cases h
    · rename_i fw
      cases hrest : fetchViews store project ws <;> rw [hrest] at h
      · cases h
      · rename_i rest'
        cases h
        rcases List.mem_cons.mp hv with heq | hmem
        · subst heq
          exact ⟨fw, hr, by rw [List.find?_cons_of_pos _ (by simp)]⟩
        · by_cases hn : w.name = v.name
          · refine ⟨fw, by rw [← hn]; exact hr, ?_⟩
            rw [List.find?_cons_of_pos _ (by simp [hn]), hn]
          · obtain ⟨f, hf, hfind⟩ := ih hrest hmem
            refine ⟨f, hf, ?_⟩
            rw [List.find?_cons_of_neg _ (by simp [hn])]
            exact hfind

end Lemmas

section Claims

open feast

/-- C1: for a store-backed feature cell, a view without ttl yields PRESENT
whenever a value exists (at any age) and NOT_FOUND when absent; with ttl
set and age = requestTime - eventTimestamp, the status is PRESENT when
age ≤ ttl (in particular at age = ttl exactly), OUTSIDE_TTL when age > ttl
with the value discarded from the payload, and NOT_FOUND when no row
existed. -/
theorem C1_ttl_status_semantics :
    (∀ (rt : Int) (c : StoreCell),
        applyTtl none rt (some c) = ⟨some c.value, .PRESENT, some c.eventTimestamp⟩) ∧
    (∀ (ttl : Option Int) (rt : Int),
        applyTtl ttl rt none = ⟨none, .NOT_FOUND, none⟩) ∧
    (∀ (t rt : Int) (c : StoreCell), rt - c.eventTimestamp ≤ t →
        applyTtl (some t) rt (some c) = ⟨some c.value, .PRESENT, some c.eventTimestamp⟩) ∧
    (∀ (t rt : Int) (c : StoreCell), rt - c.eventTimestamp = t →
        applyTtl (some t) rt (some c) = ⟨some c.value, .PRESENT, some c.eventTimestamp⟩) ∧
    (∀ (t rt : Int) (c : StoreCell), t < rt - c.eventTimestamp →
        applyTtl (some t) rt (some c) = ⟨none, .OUTSIDE_TTL, some c.eventTimestamp⟩) := by
  refine ⟨fun rt c => rfl, fun ttl rt => by cases ttl <;> rfl, ?_, ?_, ?_⟩
  · intro t rt c h
    simp [applyTtl, h]
  · intro t rt c h
    simp [applyTtl, le_of_eq h]
  · intro t rt c h
    simp [applyTtl, not_le.mpr h]

/-- C1 witness: with ttl = 1h (3600) and eventTimestamp = requestTime - 1h,
the status is PRESENT; one second older, OUTSIDE_TTL with the value
discarded. -/
theorem C1_ttl_status_semantics_witness :
    applyTtl (some 3600) 7200 (some ⟨7, 3600⟩) = ⟨some 7, .PRESENT, some 3600⟩ ∧
      applyTtl (some 3600) 7201 (some ⟨7, 3600⟩) = ⟨none, .OUTSIDE_TTL, some 3600⟩ :=
  ⟨C1_ttl_status_semantics.2.2.2.1 3600 7200 ⟨7, 3600⟩ (by decide),
    C1_ttl_status_semantics.2.2.2.2 3600 7201 ⟨7, 3600⟩ (by decide)⟩

/-- C2: every successful retrieval call with N entity rows and M requested
features returns exactly M feature vectors, each of length N; the m-th
vector belongs to the m-th requested feature reference (its cells are the
resolution of exactly that reference), and the i-th cell of every vector
is computed from the i-th request row — an on-demand cell carries that
row's own caller-supplied field value, and a store-backed cell is the
TTL-filtered store lookup of that row's own composite key — so
reassembly is order-preserving in both rows and features, independent of
the completion order of the underlying per-view reads (the engine is a
deterministic function of its inputs). -/
theorem C2_response_shape_order {reg : Registry} {store : OnlineStore} {rt : Int}
    {req : GetOnlineFeaturesRequest} {resp : GetOnlineFeaturesResponse}
    {log : List ReadCall}
    (h : getOnlineFeaturesEngine reg store rt req = .ok (resp, log)) :
    resp.results.length = req.features.length ∧
      (∀ vec ∈ resp.results, vec.length = req.entityRows.length) ∧
      ∃ resolved, resolveRefs reg req.entityRows req.features = .ok resolved ∧
        ∀ (m : Nat) (ref : FeatureRef), req.features[m]? = some ref →
          ∃ r vec, resolveRef reg req.entityRows ref = .ok r ∧
            resolved[m]? = some r ∧
            resp.results[m]? = some vec ∧
            ∀ (i : Nat) (rowi : EntityRow), req.entityRows[i]? = some rowi →
              ∃ cell, vec[i]? = some cell ∧
                (match r with
                 | .onDemand _ feat => cell = ⟨rowi.lookupField feat, .PRESENT, none⟩
                 | .storeBacked v feat =>
                     ∃ fl ki, store.read req.project v.name = .ok fl ∧
                       compositeKey (entityUnion resolved) rowi = .ok ki ∧
                       cell = applyTtl v.ttl rt (fl ki feat)) := by
  obtain ⟨resolved, rowKeys, lookups, h1, h2, h3, hresp, hlog⟩ := engine_ok_elim h
  have hlen1 : resolved.length = req.features.length := exceptMap_ok_length h1
  have hlen2 : rowKeys.length = req.entityRows.length := exceptMap_ok_length h2
  subst hresp
  refine ⟨by simpa using hlen1, ?_, resolved, h1, ?_⟩
  · intro vec hvec
    obtain ⟨r, hr, hveq⟩ := List.mem_map.mp hvec
    rw [← hveq]
    exact assembleRef_length hlen2 r
  · intro m ref href
    obtain ⟨r, hrm, hfr⟩ := exceptMap_ok_getElem h1 href
    refine ⟨r, assembleRef lookups rt rowKeys req.entityRows r, hfr, hrm, ?_, ?_⟩
    · simp [List.getElem?_map, hrm]
    · intro i rowi hrow
      obtain ⟨ki, hki, hfki⟩ := exceptMap_ok_getElem h2 hrow
      cases r with
      | onDemand vn feat =>
        refine ⟨⟨rowi.lookupField feat, .PRESENT, none⟩, ?_, rfl⟩
        simp [assembleRef, List.getElem?_map, hrow]
      | storeBacked v feat =>
        have hmem : ResolvedRef.storeBacked v feat ∈ resolved := List.getElem?_mem hrm
        have hcoh : ∀ u g, ResolvedRef.storeBacked u g ∈ resolved →
            reg.findView u.name = some u :=
          fun u g hu => resolveRefs_findView h1 hu
        have hvd : v ∈ distinctViews resolved := storeBacked_mem_distinctViews hcoh hmem
        obtain ⟨fl, hread, hfind⟩ := fetchViews_find h3 hvd
        refine ⟨applyTtl v.ttl rt (fl ki feat), ?_, fl, ki, hread, hfki, rfl⟩
        simp [assembleRef, hfind, List.getElem?_map, hki]

/-- C2 witness: the three-feature, three-row fixture call returns exactly
three vectors. -/
theorem C2_response_shape_order_witness :
    (GetOnlineFeaturesResponse.mk
      [[⟨some 7, .PRESENT, some 95⟩, ⟨some 7, .PRESENT, some 95⟩, ⟨none, .NOT_FOUND, none⟩],
       [⟨some 5, .PRESENT, none⟩, ⟨some 6, .PRESENT, none⟩, ⟨some 5, .PRESENT, none⟩],
       [⟨none, .OUTSIDE_TTL, some 50⟩, ⟨none, .OUTSIDE_TTL, some 50⟩,
        ⟨none, .NOT_FOUND, none⟩]]).results.length = fixRequest.features.length :=
  (C2_response_shape_order
    (show getOnlineFeaturesEngine fixRegistry fixStore 100 fixRequest =
        .ok (⟨[[⟨some 7, .PRESENT, some 95⟩, ⟨some 7, .PRESENT, some 95⟩,
                ⟨none, .NOT_FOUND, none⟩],
               [⟨some 5, .PRESENT, none⟩, ⟨some 6, .PRESENT, none⟩, ⟨some 5, .PRESENT, none⟩],
               [⟨none, .OUTSIDE_TTL, some 50⟩, ⟨none, .OUTSIDE_TTL, some 50⟩,
                ⟨none, .NOT_FOUND, none⟩]]⟩, [⟨"fv", [[1], [2]]⟩])
      by rfl)).1

/-- C3 counterexample: in the fixture call, request rows 0 and 1 carry
identical entity-key values for the union of needed entity names (both
composite keys resolve to `[1]`), the store is read once for that key per
view, but the two rows do not receive identical results for every
requested feature: the on-demand feature `rq:r` returns each row's own
caller-supplied value (5 vs 6). -/
theorem C3_dedup_counterexample :
    feast.compositeKey ["e"] [("e", 1), ("r", 5)] = feast.compositeKey ["e"] [("e", 1), ("r", 6)] ∧
      feast.entityUnion [.storeBacked fixView1 "f", .onDemand "rq" "r",
        .storeBacked fixView1 "g"] = ["e"] ∧
      feast.getOnlineFeaturesEngine fixRegistry fixStore 100 fixRequest =
        .ok (⟨[[⟨some 7, .PRESENT, some 95⟩, ⟨some 7, .PRESENT, some 95⟩,
                ⟨none, .NOT_FOUND, none⟩],
               [⟨some 5, .PRESENT, none⟩, ⟨some 6, .PRESENT, none⟩, ⟨some 5, .PRESENT, none⟩],
               [⟨none, .OUTSIDE_TTL, some 50⟩, ⟨none, .OUTSIDE_TTL, some 50⟩,
                ⟨none, .NOT_FOUND, none⟩]]⟩, [⟨"fv", [[1], [2]]⟩]) ∧
      ([⟨some 5, .PRESENT, none⟩, ⟨some 6, .PRESENT, none⟩,
        ⟨some 5, .PRESENT, none⟩] : List feast.FeatureResult)[0]? ≠
        ([⟨some 5, .PRESENT, none⟩, ⟨some 6, .PRESENT, none⟩,
          ⟨some 5, .PRESENT, none⟩] : List feast.FeatureResult)[1]? :=
  ⟨by rfl, by decide, by rfl, by decide⟩

/-- C3 (amended): the store is read once per unique composite key per
feature view — the logged `ReadBatch` calls carry duplicate-free key lists
and name each view at most once — and two request rows with identical
entity-key values for the union of needed entity names receive identical
`(value, status, eventTimestamp)` results for every store-backed feature;
an on-demand feature returns each row's own caller-supplied value, so its
cells coincide only when the rows also agree on the request-data field. -/
theorem C3_dedup_amended {reg : Registry} {store : OnlineStore} {rt : Int}
    {req : GetOnlineFeaturesRequest} {resp : GetOnlineFeaturesResponse}
    {log : List ReadCall} {resolved : List ResolvedRef} {m : Nat}
    {v : FeatureView} {feat : String} {vec : List FeatureResult}
    {i j : Nat} {rowi rowj : EntityRow}
    (hok : getOnlineFeaturesEngine reg store rt req = .ok (resp, log))
    (hres : resolveRefs reg req.entityRows req.features = .ok resolved)
    (hm : resolved[m]? = some (.storeBacked v feat))
    (hvec : resp.results[m]? = some vec)
    (hri : req.entityRows[i]? = some rowi)
    (hrj : req.entityRows[j]? = some rowj)
    (hkey : compositeKey (entityUnion resolved) rowi =
      compositeKey (entityUnion resolved) rowj) :
    vec[i]? = vec[j]? ∧ (∀ c ∈ log, c.keys.Nodup) ∧
      (log.map ReadCall.viewName).Nodup := by
  obtain ⟨resolved', rowKeys, lookups, h1, h2, h3, hresp, hlog⟩ := engine_ok_elim hok
  have hrr : resolved' = resolved := by
    have h' := h1.symm.trans hres
    simpa using h'
  subst hrr
  obtain ⟨ki, hki, hfki⟩ := exceptMap_ok_getElem h2 hri
  obtain ⟨kj, hkj, hfkj⟩ := exceptMap_ok_getElem h2 hrj
  have hkk : ki = kj := by
    have h' := hfki.symm.trans (hkey.trans hfkj)
    simpa using h'
  subst hresp
  simp only [List.getElem?_map, hm, Option.map_some'] at hvec
  have hvec' : vec = assembleRef lookups rt rowKeys req.entityRows (.storeBacked v feat) := by
    simpa using hvec.symm
  refine ⟨?_, ?_, ?_⟩
  · subst hvec'
    simp only [assembleRef]
    cases hf : lookups.find? (fun p => p.1 == v.name) with
    | some p => simp [List.getElem?_map, hki, hkj, hkk]
    | none =>
      obtain ⟨hilt, -⟩ := List.getElem?_eq_some.mp hki
      obtain ⟨hjlt, -⟩ := List.getElem?_eq_some.mp hkj
      simp [List.getElem?_replicate, hilt, hjlt]
  · subst hlog
    intro c hc
    obtain ⟨w, hw, hceq⟩ := List.mem_map.mp hc
    rw [← hceq]
    exact List.nodup_dedup rowKeys
  · subst hlog
    simpa [List.map_map, Function.comp_def] using distinctViews_name_nodup _

/-- C3 witness: applied to the fixture call at rows 0 and 1 (equal
composite keys) and the store-backed feature `fv:f`. -/
theorem C3_dedup_amended_witness :
    ([⟨some 7, .PRESENT, some 95⟩, ⟨some 7, .PRESENT, some 95⟩,
      ⟨none, .NOT_FOUND, none⟩] : List feast.FeatureResult)[0]? =
      ([⟨some 7, .PRESENT, some 95⟩, ⟨some 7, .PRESENT, some 95⟩,
        ⟨none, .NOT_FOUND, none⟩] : List feast.FeatureResult)[1]? :=
  (@C3_dedup_amended fixRegistry fixStore 100 fixRequest
    ⟨[[⟨some 7, .PRESENT, some 95⟩, ⟨some 7, .PRESENT, some 95⟩, ⟨none, .NOT_FOUND, none⟩],
      [⟨some 5, .PRESENT, none⟩, ⟨some 6, .PRESENT, none⟩, ⟨some 5, .PRESENT, none⟩],
      [⟨none, .OUTSIDE_TTL, some 50⟩, ⟨none, .OUTSIDE_TTL, some 50⟩,
       ⟨none, .NOT_FOUND, none⟩]]⟩
    [⟨"fv", [[1], [2]]⟩]
    [.storeBacked fixView1 "f", .onDemand "rq" "r", .storeBacked fixView1 "g"]
    0 fixView1 "f"
    [⟨some 7, .PRESENT, some 95⟩, ⟨some 7, .PRESENT, some 95⟩, ⟨none, .NOT_FOUND, none⟩]
    0 1 [("e", 1), ("r", 5)] [("e", 1), ("r", 6)]
    (by rfl) (by rfl) (by rfl) (by rfl) (by rfl) (by rfl) (by rfl)).1

/-- C4: the engine fails the entire call on the first error: a reference
resolution error (always a DefinitionError — unknown view, unknown
feature, view not online, or missing request data) aborts the call with
that error; the first failing reference's error is returned even when
later references would also fail; a store batch-read failure (always a
StoreError) likewise fails the whole call; and whenever every reference
resolves, every composite key builds and every batch read succeeds, the
call returns a complete response — so OUTSIDE_TTL and NOT_FOUND cells,
which depend only on store contents, never cause an error. -/
theorem C4_fail_fast_propagation :
    (∀ (reg : Registry) (store : OnlineStore) (rt : Int)
        (req : GetOnlineFeaturesRequest) (e : EngineError),
        resolveRefs reg req.entityRows req.features = .error e →
        getOnlineFeaturesEngine reg store rt req = .error e) ∧
    (∀ (reg : Registry) (rows : List EntityRow) (refs₁ : List FeatureRef)
        (r : FeatureRef) (refs₂ : List FeatureRef) (e : EngineError),
        (∀ a ∈ refs₁, ∃ b, resolveRef reg rows a = .ok b) →
        resolveRef reg rows r = .error e →
        resolveRefs reg rows (refs₁ ++ r :: refs₂) = .error e) ∧
    (∀ (reg : Registry) (rows : List EntityRow) (ref : FeatureRef) (e : EngineError),
        resolveRef reg rows ref = .error e → e.isDefinitionError = true) ∧
    (∀ (reg : Registry) (store : OnlineStore) (rt : Int)
        (req : GetOnlineFeaturesRequest) (resolved : List ResolvedRef)
        (rowKeys : List CompositeKey) (e : EngineError),
        resolveRefs reg req.entityRows req.features = .ok resolved →
        exceptMap (compositeKey (entityUnion resolved)) req.entityRows = .ok rowKeys →
        fetchViews store req.project (distinctViews resolved) = .error e →
        getOnlineFeaturesEngine reg store rt req = .error e ∧
          e.isDefinitionError = false) ∧
    (∀ (reg : Registry) (store : OnlineStore) (rt : Int)
        (req : GetOnlineFeaturesRequest) (resolved : List ResolvedRef)
        (rowKeys : List CompositeKey)
        (lookups : List (String × (CompositeKey → String → Option StoreCell))),
        resolveRefs reg req.entityRows req.features = .ok resolved →
        exceptMap (compositeKey (entityUnion resolved)) req.entityRows = .ok rowKeys →
        fetchViews store req.project (distinctViews resolved) = .ok lookups →
        ∃ resp log, getOnlineFeaturesEngine reg store rt req = .ok (resp, log)) := by
  refine ⟨?_, ?_, ?_, ?_, ?_⟩
  · intro reg store rt req e h
    unfold getOnlineFeaturesEngine
    rw [h]
  · intro reg rows refs₁ r refs₂ e hok hr
    exact exceptMap_error_first refs₁ r refs₂ hok hr
  · intro reg rows ref e h
    exact resolveRef_error_isDefinitionError h
  · intro reg store rt req resolved rowKeys e h1 h2 h3
    refine ⟨?_, ?_⟩
    · unfold getOnlineFeaturesEngine
      rw [h1]
      dsimp only
      rw [h2]
      dsimp only
      rw [h3]
    · obtain ⟨vn, hvn⟩ := fetchViews_error h3
      rw [hvn]
      rfl
  · intro reg store rt req resolved rowKeys lookups h1 h2 h3
    exact ⟨_, _, engine_ok_intro h1 h2 h3⟩

/-- C4 witness: requesting `"missingview:missingfeat"` fails the whole
call with the DefinitionError "feature not found"; no partial response is
returned. -/
theorem C4_fail_fast_propagation_witness :
    feast.getOnlineFeaturesEngine fixRegistry fixStore 100 fixRequestUnknown =
      .error (.featureNotFound "missingview" "missingfeat") :=
  C4_fail_fast_propagation.1 fixRegistry fixStore 100 fixRequestUnknown
    (.featureNotFound "missingview" "missingfeat") (by rfl)

/-- C5: a feature resolved against a `RequestFeatureView` is served by
passthrough: its response vector is exactly the caller-supplied value of
that field in each row (which resolution guarantees to be present in
every row), with status always PRESENT, no event timestamp and no TTL
check; and a call whose references all resolve on-demand performs zero
online store reads (the read log is empty). -/
theorem C5_on_demand_passthrough :
    (∀ (reg : Registry) (store : OnlineStore) (rt : Int)
        (req : GetOnlineFeaturesRequest) (resp : GetOnlineFeaturesResponse)
        (log : List ReadCall) (resolved : List ResolvedRef) (m : Nat)
        (vn feat : String) (vec : List FeatureResult),
        getOnlineFeaturesEngine reg store rt req = .ok (resp, log) →
        resolveRefs reg req.entityRows req.features = .ok resolved →
        resolved[m]? = some (.onDemand vn feat) →
        resp.results[m]? = some vec →
        vec = req.entityRows.map
          (fun row => ⟨row.lookupField feat, .PRESENT, none⟩)) ∧
    (∀ (reg : Registry) (rows : List EntityRow) (ref : FeatureRef) (vn feat : String),
        resolveRef reg rows ref = .ok (.onDemand vn feat) →
        ∀ row ∈ rows, (row.lookupField feat).isSome = true) ∧
    (∀ (reg : Registry) (store : OnlineStore) (rt : Int)
        (req : GetOnlineFeaturesRequest) (resp : GetOnlineFeaturesResponse)
        (log : List ReadCall) (resolved : List ResolvedRef),
        getOnlineFeaturesEngine reg store rt req = .ok (resp, log) →
        resolveRefs reg req.entityRows req.features = .ok resolved →
        (∀ r ∈ resolved, r.storeView = none) →
        log = []) := by
  refine ⟨?_, ?_, ?_⟩
  · intro reg store rt req resp log resolved m vn feat vec hok hres hm hvec
    obtain ⟨resolved', rowKeys, lookups, h1, h2, h3, hresp, hlog⟩ := engine_ok_elim hok
    have hrr : resolved' = resolved := by
      have h' := h1.symm.trans hres
      simpa using h'
    subst hrr
    subst hresp
    simp only [List.getElem?_map, hm, Option.map_some'] at hvec
    have hvec' : vec = assembleRef lookups rt rowKeys req.entityRows (.onDemand vn feat) := by
      simpa using hvec.symm
    subst hvec'
    rfl
  · intro reg rows ref vn feat h row hrow
    obtain ⟨hfeat, rv, hrv, hvn, hc, hall⟩ := resolveRef_onDemand_elim h
    subst hfeat
    have hmem : ref.featureName ∈ rv.schemaFields := by
      simpa using hc
    exact hall ref.featureName hmem row hrow
  · intro reg store rt req resp log resolved hok hres hodr
    obtain ⟨resolved', rowKeys, lookups, h1, h2, h3, hresp, hlog⟩ := engine_ok_elim hok
    have hrr : resolved' = resolved := by
      have h' := h1.symm.trans hres
      simpa using h'
    subst hrr
    rw [hlog, distinctViews_eq_nil hodr]
    rfl

/-- C5 witness: the on-demand-only fixture call returns each row's own
supplied value for `rq:r` with status PRESENT. -/
theorem C5_on_demand_passthrough_witness :
    ([⟨some 5, .PRESENT, none⟩, ⟨some 6, .PRESENT, none⟩] : List feast.FeatureResult) =
      fixRequestOnDemandOnly.entityRows.map
        (fun row => ⟨feast.EntityRow.lookupField row "r", .PRESENT, none⟩) :=
  C5_on_demand_passthrough.1 fixRegistry fixStore 100 fixRequestOnDemandOnly
    ⟨[[⟨some 5, .PRESENT, none⟩, ⟨some 6, .PRESENT, none⟩]]⟩ []
    [.onDemand "rq" "r"] 0 "rq" "r"
    [⟨some 5, .PRESENT, none⟩, ⟨some 6, .PRESENT, none⟩]
    (by rfl) (by rfl) (by rfl) (by rfl)

/-- C6 counterexample: `fixDataSourceNoOptions` is a legal `DataSource`
value (every proto3 field may be at its default) that declares
`type = BATCH_FILE` yet populates no option set — so "exactly one option
set is populated" fails; moreover a value populating `file_options` while
declaring `type = STREAM_KAFKA` is equally constructible, so the declared
`type` is not structurally tied to the populated variant. -/
theorem C6_tagged_union_counterexample :
    ¬ core.DataSource.taggedUnionInvariant fixDataSourceNoOptions ∧
      core.DataSource.typeMatchesOptions
        ⟨.STREAM_KAFKA, [], "", "", "", "", some (.fileOptions ⟨none, "", ""⟩)⟩ = false := by
  constructor
  · intro h
    exact absurd h.1 (by decide)
  · rfl

/-- C6 (amended): every `DataSource` value has at most one populated
kind-specific option set (the proto3 `oneof` guarantee); but "exactly
one, matching the declared `type`, enforced at construction" does not
hold — the options may be absent and the `type` field is independent of
the populated variant — and immutability after publication is not
expressed by the schema. -/
theorem C6_oneof_at_most_one (ds : core.DataSource) : ds.populatedCount ≤ 1 := by
  rcases ds with ⟨t, fm, ec, dc, cc, ct, opts⟩
  cases opts with
  | none => exact Nat.zero_le _
  | some o => cases o <;> exact Nat.le_refl 1

/-- C7 counterexample: handling one retrieval call does write per-call
data to the shared `FeatureStore` that later calls can observe — the
handler retains the call's context via `SetOnlineStoreContext`, so the
server state after a call differs from the state before it. -/
theorem C7_stateless_counterexample :
    (fixServer.GetOnlineFeatures ⟨0⟩ 100 fixRequest).1 ≠ fixServer := by
  intro h
  have h' := congrArg (fun z => z.fs.onlineStoreCtx) h
  simp [servingServiceServer.GetOnlineFeatures, FeatureStore.SetOnlineStoreContext,
    fixServer] at h'

/-- C7 (amended): the handler does retain one piece of per-call data on
the shared `FeatureStore` — the call's context, stored by
`SetOnlineStoreContext` — but mutates nothing else: the registry and
store are unchanged, and the call's result depends only on the request
and the injected registry/store state, not on any previously retained
context (so the engine itself holds no cross-call cache). -/
theorem C7_frame_amended (s : servingServiceServer) (ctx : Ctx) (rt : Int)
    (req : feast.GetOnlineFeaturesRequest) :
    (s.GetOnlineFeatures ctx rt req).1.fs.registry = s.fs.registry ∧
      (s.GetOnlineFeatures ctx rt req).1.fs.store = s.fs.store ∧
      (s.GetOnlineFeatures ctx rt req).1.fs.onlineStoreCtx = some ctx ∧
      (s.GetOnlineFeatures ctx rt req).2 =
        feast.getOnlineFeaturesEngine s.fs.registry s.fs.store rt req :=
  ⟨rfl, rfl, rfl, rfl⟩

/-- C8: for every `GetOnlineFeatures` call the handler first stores the
incoming call context on the feature store (`SetOnlineStoreContext`), so
the context is available to the online store before retrieval begins,
and then returns `FeatureStore.GetOnlineFeatures`'s response and error
unchanged. -/
theorem C8_context_propagation (s : servingServiceServer) (ctx : Ctx) (rt : Int)
    (req : feast.GetOnlineFeaturesRequest) :
    (s.GetOnlineFeatures ctx rt req).1.fs = s.fs.SetOnlineStoreContext ctx ∧
      (s.fs.SetOnlineStoreContext ctx).onlineStoreCtx = some ctx ∧
      (s.GetOnlineFeatures ctx rt req).2 =
        (s.fs.SetOnlineStoreContext ctx).GetOnlineFeatures rt req :=
  ⟨rfl, rfl, rfl⟩

/-- C9: `GetFeastServingInfo` returns the static server identifier
constant with a nil error, and its result is independent of the server
state, the context and the request contents. -/
theorem C9_serving_info_constant (s s' : servingServiceServer) (ctx ctx' : Ctx)
    (req req' : GetFeastServingInfoRequest) :
    s.GetFeastServingInfo ctx req = .ok ⟨feastServerVersion⟩ ∧
      s.GetFeastServingInfo ctx req = s'.GetFeastServingInfo ctx' req' :=
  ⟨rfl, rfl⟩

/-- C10: every accessor of the schema-model types (`FeatureView`,
`FeatureViewSpec`, `FeatureViewMeta`, `MaterializationInterval`) is total
on nil receivers: applied to `none` it returns the field type's zero
value — nil (`none`) for pointer fields, `""` for strings, the nil
slice/map (`[]`) for slices and maps, and `false` for bools. -/
theorem C10_nil_receiver_getters :
    core.FeatureView.GetSpec none = none ∧
      core.FeatureView.GetMeta none = none ∧
      core.FeatureViewSpec.GetName none = "" ∧
      core.FeatureViewSpec.GetProject none = "" ∧
      core.FeatureViewSpec.GetEntities none = [] ∧
      core.FeatureViewSpec.GetFeatures none = [] ∧
      core.FeatureViewSpec.GetTags none = [] ∧
      core.FeatureViewSpec.GetTtl none = none ∧
      core.FeatureViewSpec.GetBatchSource none = none ∧
      core.FeatureViewSpec.GetStreamSource none = none ∧
      core.FeatureViewSpec.GetOnline none = false ∧
      core.FeatureViewMeta.GetCreatedTimestamp none = none ∧
      core.FeatureViewMeta.GetLastUpdatedTimestamp none = none ∧
      core.FeatureViewMeta.GetMaterializationIntervals none = [] ∧
      core.MaterializationInterval.GetStartTime none = none ∧
      core.MaterializationInterval.GetEndTime none = none :=
  ⟨rfl, rfl, rfl, rfl, rfl, rfl, rfl, rfl, rfl, rfl, rfl, rfl, rfl, rfl, rfl, rfl⟩

end Claims
